import Mathlib

/-!
Shallow embedding of the Agricompass marketplace backend
(src/main.py together with the collection schemas of src/schemas.py),
and proofs about its identity, catalog and order-placement services.

Conventions of the embedding:

* Python floats (prices, quantities, totals) are modelled as exact
  rationals; `round(x, 2)` becomes `round2` below (round half to even at
  two decimals, the tie rule of Python's `round`).
* Handlers that may raise `HTTPException` return a `Result`; handlers
  that also write through the persistence gateway return the updated
  `DB` state explicitly, so that "nothing was persisted" is the
  assertion that the returned state equals the input state.
* `hashlib.sha256(...).hexdigest()` is an external library function; the
  identity service is parametric in the one-way hash `hash : String →
  String` it uses.
* Mongo documents are read back with `.get(...)` in main.py, so fields a
  raw document may lack are `Option`-valued here.
-/

namespace Agricompass

/-- An HTTPException as raised by main.py: status code plus detail. -/
structure Err where
  status : Nat
  detail : String
deriving DecidableEq

/-- The error taxonomy of the spec (section 7), keyed by the
machine-readable status code surfaced to the caller. -/
inductive ErrKind where
  | badRequest
  | unauthorized
  | forbidden
  | notFound
  | conflict
  | internal
deriving DecidableEq

/-- The error kind surfaced by an HTTPException, read off its status. -/
def Err.kind (e : Err) : ErrKind :=
  if e.status = 400 then .badRequest
  else if e.status = 401 then .unauthorized
  else if e.status = 403 then .forbidden
  else if e.status = 404 then .notFound
  else if e.status = 409 then .conflict
  else .internal

/-- Outcome of a handler: a response value or a raised HTTPException. -/
inductive Result (α : Type) where
  | ok (val : α)
  | err (e : Err)
deriving DecidableEq

/-- ASCII lowercasing of one character; models Python str.lower on the
ASCII fragment this backend compares (the header scheme and hex ids). -/
def lowerChar (c : Char) : Char :=
  if 65 ≤ c.toNat && c.toNat ≤ 90 then Char.ofNat (c.toNat + 32) else c

/-- str.lower, character by character. -/
def lowerChars (cs : List Char) : List Char := cs.map lowerChar

/-- Python str.startswith, on character lists (subject first, pattern
second). -/
def startsWithChars : List Char → List Char → Bool
  | _, [] => true
  | [], _ :: _ => false
  | c :: cs, p :: ps => c == p && startsWithChars cs ps

/-- The remainder of the string after the first space, when a space
exists: this is s.split(" ", 1)[1]. -/
def afterFirstSpace : List Char → Option (List Char)
  | [] => none
  | c :: cs => if c == ' ' then some cs else afterFirstSpace cs

/-- The whitespace characters Python str.strip removes. -/
def isPySpace (c : Char) : Bool :=
  c == ' ' || c == '\t' || c == '\n' || c == '\r' || c == '\x0b' || c == '\x0c'

/-- Python str.strip: drop surrounding whitespace. -/
def stripChars (cs : List Char) : List Char :=
  ((cs.dropWhile isPySpace).reverse.dropWhile isPySpace).reverse

/-- Hexadecimal digits, the characters bson.ObjectId accepts. -/
def isHexDigit (c : Char) : Bool :=
  (48 ≤ c.toNat && c.toNat ≤ 57) ||
  (97 ≤ c.toNat && c.toNat ≤ 102) ||
  (65 ≤ c.toNat && c.toNat ≤ 70)

/-- bson.ObjectId(s) succeeds on a string exactly when it is 24
hexadecimal characters. -/
def validObjectId (s : String) : Bool :=
  s.toList.length == 24 && s.toList.all isHexDigit

/-- str(ObjectId(s)): the canonical lowercase form under which ids are
stored and compared (ObjectId equality is byte equality, so hex case is
immaterial). -/
def canonicalId (s : String) : String := String.mk (lowerChars s.toList)

/-- The oid helper of main.py (lines 26-30): parse an id string or raise
400 "Invalid id format". -/
def oid (s : String) : Result String :=
  if validObjectId s then .ok (canonicalId s) else .err ⟨400, "Invalid id format"⟩

/-- A stored user document: the fields of schemas.User plus the Mongo
_id (as its canonical string) and the creation timestamp every persisted
record carries. -/
structure UserDoc where
  id : String
  name : String
  email : String
  password_hash : String
  role : String
  phone : Option String
  region : Option String
  verified : Bool
  token : Option String
  created_at : Nat
deriving DecidableEq

/-- A stored listing document. The fields main.py reads back via
doc.get are Option-valued, since a raw document need not carry them;
schema fields never read by the embedded handlers are omitted. -/
structure ListingDoc where
  id : String
  farmer_id : String
  title : Option String
  category : Option String
  unit_price : Option ℚ
  region : Option String
  status : Option String
  created_at : Nat
deriving DecidableEq

/-- An order item snapshot as persisted by create_order. -/
structure OrderItemDoc where
  listing_id : String
  quantity : ℚ
  unit_price : ℚ
  title : String
deriving DecidableEq

/-- A stored order document. -/
structure OrderDoc where
  id : String
  buyer_id : String
  items : List OrderItemDoc
  total_amount : ℚ
  status : String
  delivery_terms : Option String
  payment_method : Option String
  created_at : Nat
deriving DecidableEq

/-- The persistence gateway state: the collections this core touches.
nextId models identifier and timestamp generation: the spec (section 3)
stipulates every persisted record carries a unique identifier and a
creation timestamp; database.py itself is not under src/, so this part
is modelled from the spec by a monotone counter. -/
structure DB where
  users : List UserDoc
  listings : List ListingDoc
  orders : List OrderDoc
  nextId : Nat
deriving DecidableEq

/-- Modelled from the spec: the unique identifier database.create_document
assigns to the next persisted record. -/
def DB.freshId (db : DB) : String := toString db.nextId

/-- Request body of POST /auth/signup (pydantic validates the role
against the farmer, buyer, officer, admin pattern before the handler
runs). -/
structure SignUpBody where
  name : String
  email : String
  password : String
  role : String
  phone : Option String
  region : Option String

/-- Response of the signup and login handlers. -/
structure AuthResp where
  id : String
  token : String
  role : String
  name : Option String
deriving DecidableEq

/-- POST /auth/signup handler (main.py lines 119-133). hash stands for
hashlib.sha256(...).hexdigest(), used both for the password hash and for
the email:role token. -/
def signup (hash : String → String) (db : DB) (body : SignUpBody) :
    DB × Result AuthResp :=
  match db.users.find? (fun u => u.email == body.email) with
  | some _ => (db, .err ⟨400, "Email already registered"⟩)
  | none =>
    let token := hash (body.email ++ ":" ++ body.role)
    let u : UserDoc :=
      ⟨db.freshId, body.name, body.email, hash body.password, body.role,
       body.phone, body.region, false, some token, db.nextId⟩
    (⟨db.users ++ [u], db.listings, db.orders, db.nextId + 1⟩,
     .ok ⟨db.freshId, token, body.role, some body.name⟩)

/-- Request body of POST /auth/login. -/
structure LoginBody where
  email : String
  password : String

/-- Python truthiness of user.get("token"): both a missing token and the
empty string are falsy. -/
def tokenSet : Option String → Bool
  | none => false
  | some t => !(t == "")

/-- The user document with its token replaced. -/
def UserDoc.setToken (u : UserDoc) (t : String) : UserDoc :=
  ⟨u.id, u.name, u.email, u.password_hash, u.role, u.phone, u.region,
   u.verified, some t, u.created_at⟩

/-- Mongo update_one filtered on _id with a $set of the token: only the
first matching document is updated. -/
def updateUserToken : List UserDoc → String → String → List UserDoc
  | [], _, _ => []
  | u :: rest, uid, tok =>
    if u.id == uid then u.setToken tok :: rest
    else u :: updateUserToken rest uid tok

/-- POST /auth/login handler (main.py lines 139-149): reject unknown
email or wrong password hash with 401; derive and persist a token via
the email:role hash when none is set; return the token. -/
def login (hash : String → String) (db : DB) (body : LoginBody) :
    DB × Result AuthResp :=
  match db.users.find? (fun u => u.email == body.email) with
  | none => (db, .err ⟨401, "Invalid credentials"⟩)
  | some u =>
    if u.password_hash == hash body.password then
      if tokenSet u.token then
        (db, .ok ⟨u.id, u.token.getD "", u.role, some u.name⟩)
      else
        let t := hash (u.email ++ ":" ++ u.role)
        (⟨updateUserToken db.users u.id t, db.listings, db.orders, db.nextId⟩,
         .ok ⟨u.id, t, u.role, some u.name⟩)
    else (db, .err ⟨401, "Invalid credentials"⟩)

/-- The caller identity resolved by the auth dependency. -/
structure AuthedUser where
  id : String
  role : String
  name : Option String
deriving DecidableEq

/-- The character list of the literal "bearer " the scheme check uses. -/
def bearerPat : List Char := ['b', 'e', 'a', 'r', 'e', 'r', ' ']

/-- authorization.lower().startswith("bearer ") of main.py line 56. -/
def bearerOk (s : String) : Bool := startsWithChars (lowerChars s.toList) bearerPat

/-- The get_current_user dependency (main.py lines 55-63). The
unreachable 500 branch stands for the IndexError that
authorization.split(" ", 1)[1] would raise were no space present; the
bearer guard makes it dead code. -/
def get_current_user (db : DB) (authorization : Option String) :
    Result AuthedUser :=
  match authorization with
  | none => .err ⟨401, "Unauthorized"⟩
  | some s =>
    if s == "" then .err ⟨401, "Unauthorized"⟩
    else if !(bearerOk s) then .err ⟨401, "Unauthorized"⟩
    else
      match afterFirstSpace s.toList with
      | none => .err ⟨500, "Internal Server Error"⟩
      | some rest =>
        let token := String.mk (stripChars rest)
        match db.users.find? (fun u => u.token == some token) with
        | none => .err ⟨401, "Invalid token"⟩
        | some u => .ok ⟨u.id, u.role, some u.name⟩

/-- The bearer token as the claim describes it: the entire remainder of
the header after the first space, with surrounding whitespace stripped. -/
def claimToken (s : String) : String :=
  String.mk (stripChars ((afterFirstSpace s.toList).getD []))

/-- Query parameters of GET /listings (FastAPI validates the bounds
before the handler runs; limit defaults to 50). -/
structure ListingsQuery where
  category : Option String
  region : Option String
  q : Option String
  min_price : Option ℚ
  max_price : Option ℚ
  limit : Nat
deriving DecidableEq

/-- One string-valued filter clause: main.py adds it only when the
parameter is truthy (neither None nor empty), and Mongo equality then
requires the field to be present and equal. -/
def strFilter (param : Option String) (field : Option String) : Bool :=
  match param with
  | none => true
  | some sp => sp == "" || field == some sp

/-- The unit_price range clause: added when either bound is not None
(explicit is-not-None tests in main.py); both bounds are inclusive and a
document lacking the field matches no comparison clause. -/
def priceFilter (minP maxP : Option ℚ) (price : Option ℚ) : Bool :=
  if minP.isNone && maxP.isNone then true
  else
    match price with
    | none => false
    | some p =>
      (match minP with
       | none => true
       | some m => decide (m ≤ p)) &&
      (match maxP with
       | none => true
       | some m => decide (p ≤ m))

/-- MongoDB $regex matching with $options "i", at one position: a dot in
the pattern matches any character except a newline, every other pattern
character matches itself case-insensitively. This models the PCRE engine
faithfully on patterns built from literal characters and dots, the
fragment the theorems below restrict themselves to. -/
def reMatchHere : List Char → List Char → Bool
  | [], _ => true
  | _ :: _, [] => false
  | p :: ps, t :: ts =>
    (if p == '.' then !(t == '\n') else lowerChar p == lowerChar t) &&
    reMatchHere ps ts

/-- Unanchored regex search over the text, as Mongo applies $regex. -/
def reSearch (p : List Char) : List Char → Bool
  | [] => reMatchHere p []
  | t :: ts => reMatchHere p (t :: ts) || reSearch p ts

/-- The Mongo filter document built by get_listings (main.py lines
187-211), applied to one listing document. -/
def matchesQuery (qp : ListingsQuery) (l : ListingDoc) : Bool :=
  l.status == some "active" &&
  strFilter qp.category l.category &&
  strFilter qp.region l.region &&
  priceFilter qp.min_price qp.max_price l.unit_price &&
  (match qp.q with
   | none => true
   | some s =>
     s == "" ||
     (match l.title with
      | none => false
      | some t => reSearch s.toList t.toList))

/-- Descending creation-time order of listings, from .sort("created_at", -1). -/
def listingDesc (a b : ListingDoc) : Prop := b.created_at ≤ a.created_at

instance : DecidableRel listingDesc := fun _ _ => Nat.decLe _ _

instance : IsTotal ListingDoc listingDesc :=
  ⟨fun a b => Nat.le_total b.created_at a.created_at⟩

instance : IsTrans ListingDoc listingDesc :=
  ⟨fun _ _ _ h1 h2 => Nat.le_trans h2 h1⟩

/-- GET /listings handler (main.py lines 187-211). PyMongo applies the
cursor sort on the server before the limit, whatever the chaining
order, so the result is the sorted filtered collection truncated at
limit. -/
def get_listings (db : DB) (qp : ListingsQuery) : List ListingDoc :=
  (List.insertionSort listingDesc (db.listings.filter (matchesQuery qp))).take qp.limit

/-- Case-insensitive literal match of the pattern at the start of the
text: the claim-side notion of matching. -/
def litHere : List Char → List Char → Bool
  | [], _ => true
  | _ :: _, [] => false
  | p :: ps, t :: ts => (lowerChar p == lowerChar t) && litHere ps ts

/-- Case-insensitive literal substring search. -/
def litSearch (p : List Char) : List Char → Bool
  | [] => litHere p []
  | t :: ts => litHere p (t :: ts) || litSearch p ts

/-- Claim-side definition, from the words of the spec: the title
contains the query as a case-insensitive literal substring. -/
def ciSubstring (q t : String) : Bool := litSearch q.toList t.toList

/-- The PCRE metacharacters. -/
def isRegexMeta (c : Char) : Bool :=
  c == '.' || c == '^' || c == '$' || c == '*' || c == '+' || c == '?' ||
  c == '(' || c == ')' || c == '[' || c == ']' || c == '\x7b' ||
  c == '\x7d' || c == '|' || c == '\\'

/-- Patterns free of any regex metacharacter. -/
def literalPat (p : List Char) : Bool := p.all (fun c => !(isRegexMeta c))

/-- Patterns built from literal characters and dots: the fragment on
which reMatchHere is faithful to PCRE. -/
def dotLiteralPat (p : List Char) : Bool :=
  p.all (fun c => !(isRegexMeta c) || c == '.')

/-- One requested order item (POST /orders body). -/
structure OrderItemIn where
  listing_id : String
  quantity : ℚ
deriving DecidableEq

/-- Request body of POST /orders. -/
structure CreateOrderBody where
  items : List OrderItemIn
  delivery_terms : Option String
  payment_method : Option String
deriving DecidableEq

/-- Response of POST /orders. -/
structure OrderResp where
  id : String
  total : ℚ
  status : String
deriving DecidableEq

/-- find_one on the listing collection by canonical ObjectId string. -/
def findListing (db : DB) (cid : String) : Option ListingDoc :=
  db.listings.find? (fun l => l.id == cid)

/-- One iteration of the create_order validation loop (main.py lines
234-248): parse the id, look the listing up, require active status and a
positive quantity, then snapshot price and title with their .get
defaults. -/
def validateItem (db : DB) (it : OrderItemIn) : Result OrderItemDoc :=
  match oid it.listing_id with
  | .err e => .err e
  | .ok cid =>
    match findListing db cid with
    | none => .err ⟨404, "Listing not found: " ++ it.listing_id⟩
    | some ldoc =>
      if !(ldoc.status == some "active") then
        .err ⟨400, "Listing not active: " ++ it.listing_id⟩
      else if it.quantity ≤ 0 then .err ⟨400, "Quantity must be > 0"⟩
      else .ok ⟨it.listing_id, it.quantity, ldoc.unit_price.getD 0, ldoc.title.getD "Produce"⟩

/-- The whole validation loop of main.py lines 232-249: items_out
accumulates the snapshots in input order, total the running sum; the
first failing check aborts with its HTTPException. -/
def processItems (db : DB) (acc : List OrderItemDoc) (total : ℚ) :
    List OrderItemIn → Result (List OrderItemDoc × ℚ)
  | [] => .ok (acc, total)
  | it :: rest =>
    match validateItem db it with
    | .err e => .err e
    | .ok d => processItems db (acc ++ [d]) (total + d.unit_price * d.quantity) rest

/-- Round half to even to an integer, the tie rule of Python round. -/
def roundHalfEven (q : ℚ) : ℤ :=
  if q - ⌊q⌋ < 1 / 2 then ⌊q⌋
  else if q - ⌊q⌋ > 1 / 2 then ⌊q⌋ + 1
  else if ⌊q⌋ % 2 = 0 then ⌊q⌋ else ⌊q⌋ + 1

/-- Python round(x, 2) on exact rationals. -/
def round2 (q : ℚ) : ℚ := (roundHalfEven (q * 100) : ℚ) / 100

/-- POST /orders handler (main.py lines 225-259). -/
def create_order (db : DB) (current : AuthedUser) (body : CreateOrderBody) :
    DB × Result OrderResp :=
  if !(current.role == "buyer" || current.role == "admin") then
    (db, .err ⟨403, "Only buyers can place orders"⟩)
  else if body.items.isEmpty then (db, .err ⟨400, "No items provided"⟩)
  else
    match processItems db [] 0 body.items with
    | .err e => (db, .err e)
    | .ok (items_out, total) =>
      let order : OrderDoc :=
        ⟨db.freshId, current.id, items_out, round2 total, "pending",
         body.delivery_terms, body.payment_method, db.nextId⟩
      (⟨db.users, db.listings, db.orders ++ [order], db.nextId + 1⟩,
       .ok ⟨db.freshId, round2 total, "pending"⟩)

/-- Descending creation-time order of orders, from .sort("created_at", -1). -/
def orderDesc (a b : OrderDoc) : Prop := b.created_at ≤ a.created_at

instance : DecidableRel orderDesc := fun _ _ => Nat.decLe _ _

instance : IsTotal OrderDoc orderDesc :=
  ⟨fun a b => Nat.le_total b.created_at a.created_at⟩

instance : IsTrans OrderDoc orderDesc :=
  ⟨fun _ _ _ h1 h2 => Nat.le_trans h2 h1⟩

/-- GET /orders handler (main.py lines 261-266): role gate, then the
orders whose buyer_id is the caller id, newest first. -/
def my_orders (db : DB) (current : AuthedUser) : Result (List OrderDoc) :=
  if !(current.role == "buyer" || current.role == "admin") then
    .err ⟨403, "Only buyers can view their orders"⟩
  else
    .ok (List.insertionSort orderDesc (db.orders.filter (fun o => o.buyer_id == current.id)))

/-- The snapshot the loop records for an item, given the listings at
call time. -/
def snapshot (db : DB) (it : OrderItemIn) : OrderItemDoc :=
  match findListing db (canonicalId it.listing_id) with
  | some l => ⟨it.listing_id, it.quantity, l.unit_price.getD 0, l.title.getD "Produce"⟩
  | none => ⟨it.listing_id, it.quantity, 0, "Produce"⟩

/-- Decidable per-item validity: structurally valid id, listing present
and active, strictly positive quantity. -/
def itemValid (db : DB) (it : OrderItemIn) : Bool :=
  validObjectId it.listing_id &&
  (match findListing db (canonicalId it.listing_id) with
   | none => false
   | some l => l.status == some "active") &&
  decide (0 < it.quantity)

/-- Sum over the snapshots of unit price times quantity. -/
def contribSum (ds : List OrderItemDoc) : ℚ :=
  (ds.map (fun d => d.unit_price * d.quantity)).sum

/-! Helper lemmas about the validation loop. -/

lemma validateItem_of_valid {db : DB} {it : OrderItemIn}
    (h : itemValid db it = true) : validateItem db it = .ok (snapshot db it) := by
  unfold itemValid at h
  simp only [Bool.and_eq_true, decide_eq_true_eq] at h
  obtain ⟨⟨hid, hfind⟩, hq⟩ := h
  rcases hf : findListing db (canonicalId it.listing_id) with _ | l
  · rw [hf] at hfind; exact absurd hfind (by simp)
  · rw [hf] at hfind
    have hst : l.status = some "active" := by simpa using hfind
    have hq' : ¬ (it.quantity ≤ 0) := not_le.mpr hq
    simp [validateItem, oid, hid, hf, hst, hq', snapshot]

lemma validateItem_err_of_invalid {db : DB} {it : OrderItemIn}
    (h : itemValid db it = false) : ∃ e, validateItem db it = .err e := by
  by_cases hid : validObjectId it.listing_id = true
  · rcases hf : findListing db (canonicalId it.listing_id) with _ | l
    · exact ⟨⟨404, "Listing not found: " ++ it.listing_id⟩,
        by simp [validateItem, oid, hid, hf]⟩
    · by_cases hst : l.status = some "active"
      · have hq : ¬ (0 < it.quantity) := by
          intro hq
          rw [itemValid, hid, hf] at h
          simp [hst, hq] at h
        exact ⟨⟨400, "Quantity must be > 0"⟩,
          by simp [validateItem, oid, hid, hf, hst, not_lt.mp hq]⟩
      · have hb : (l.status == some "active") = false := by
          cases hb : l.status == some "active"
          · rfl
          · exact absurd (by simpa using hb) hst
        exact ⟨⟨400, "Listing not active: " ++ it.listing_id⟩,
          by simp [validateItem, oid, hid, hf, hb]⟩
  · have hid' : validObjectId it.listing_id = false := by
      cases hb : validObjectId it.listing_id
      · rfl
      · exact absurd hb hid
    exact ⟨⟨400, "Invalid id format"⟩, by simp [validateItem, oid, hid']⟩

lemma processItems_cons_ok {db : DB} {it : OrderItemIn} {d : OrderItemDoc}
    (acc : List OrderItemDoc) (total : ℚ) (rest : List OrderItemIn)
    (h : validateItem db it = .ok d) :
    processItems db acc total (it :: rest) =
      processItems db (acc ++ [d]) (total + d.unit_price * d.quantity) rest := by
  simp only [processItems, h]

lemma processItems_cons_err {db : DB} {it : OrderItemIn} {e : Err}
    (acc : List OrderItemDoc) (total : ℚ) (rest : List OrderItemIn)
    (h : validateItem db it = .err e) :
    processItems db acc total (it :: rest) = .err e := by
  simp only [processItems, h]

lemma processItems_valid_pre (db : DB) (pre : List OrderItemIn)
    (xs : List OrderItemIn) (acc : List OrderItemDoc) (total : ℚ)
    (hpre : ∀ p ∈ pre, itemValid db p = true) :
    processItems db acc total (pre ++ xs) =
      processItems db (acc ++ pre.map (snapshot db))
        (total + contribSum (pre.map (snapshot db))) xs := by
  induction pre generalizing acc total with
  | nil => simp [contribSum]
  | cons p ps ih =>
    have hp : itemValid db p = true := hpre p (by simp)
    have hps : ∀ x ∈ ps, itemValid db x = true := fun x hx => hpre x (by simp [hx])
    rw [List.cons_append]
    rw [processItems_cons_ok _ _ _ (validateItem_of_valid hp)]
    rw [ih _ _ hps]
    have hacc : acc ++ [snapshot db p] ++ ps.map (snapshot db) =
        acc ++ (p :: ps).map (snapshot db) := by simp
    have htot : total + (snapshot db p).unit_price * (snapshot db p).quantity +
        contribSum (ps.map (snapshot db)) =
        total + contribSum ((p :: ps).map (snapshot db)) := by
      simp [contribSum]; ring
    rw [hacc, htot]

lemma processItems_all_valid (db : DB) (items : List OrderItemIn)
    (hvalid : ∀ p ∈ items, itemValid db p = true) :
    processItems db [] 0 items =
      .ok (items.map (snapshot db), contribSum (items.map (snapshot db))) := by
  have := processItems_valid_pre db items [] [] 0 hvalid
  simpa [processItems] using this

lemma processItems_err_of_invalid (db : DB) (xs : List OrderItemIn)
    (acc : List OrderItemDoc) (total : ℚ)
    (h : ∃ it ∈ xs, itemValid db it = false) :
    ∃ e, processItems db acc total xs = .err e := by
  induction xs generalizing acc total with
  | nil => simp at h
  | cons x rest ih =>
    by_cases hx : itemValid db x = true
    · have hrest : ∃ it ∈ rest, itemValid db it = false := by
        obtain ⟨it, hit, hbad⟩ := h
        rcases List.mem_cons.mp hit with rfl | hmem
        · exact absurd hx (by simp [hbad])
        · exact ⟨it, hmem, hbad⟩
      obtain ⟨e, he⟩ := ih _ _ hrest
      refine ⟨e, ?_⟩
      rw [processItems_cons_ok _ _ _ (validateItem_of_valid hx)]
      exact he
    · have hx' : itemValid db x = false := by
        cases hb : itemValid db x
        · rfl
        · exact absurd hb hx
      obtain ⟨e, he⟩ := validateItem_err_of_invalid hx'
      exact ⟨e, processItems_cons_err _ _ _ he⟩

lemma role_guard_true {current : AuthedUser}
    (hrole : current.role = "buyer" ∨ current.role = "admin") :
    (current.role == "buyer" || current.role == "admin") = true := by
  rcases hrole with h | h <;> simp [h]

/-- C1: an order-creation call by a buyer or admin whose items all pass
validation persists exactly one new order whose total_amount is
round(sum of snapshotted unit price times requested quantity, 2), whose
items are the call-time snapshots, and whose status, like the returned
status, is "pending"; the returned total equals the persisted one. -/
theorem create_order_total_pending (db : DB) (current : AuthedUser)
    (body : CreateOrderBody)
    (hrole : current.role = "buyer" ∨ current.role = "admin")
    (hne : body.items ≠ [])
    (hvalid : ∀ it ∈ body.items, itemValid db it = true) :
    ∃ order : OrderDoc,
      (create_order db current body).1.orders = db.orders ++ [order] ∧
      (create_order db current body).2 = .ok ⟨order.id, order.total_amount, "pending"⟩ ∧
      order.status = "pending" ∧
      order.buyer_id = current.id ∧
      order.items = body.items.map (snapshot db) ∧
      order.total_amount = round2 (contribSum (body.items.map (snapshot db))) := by
  have hro := role_guard_true hrole
  have hie : body.items.isEmpty = false := by
    cases h : body.items
    · exact absurd h hne
    · rfl
  have hpi := processItems_all_valid db body.items hvalid
  refine ⟨⟨db.freshId, current.id, body.items.map (snapshot db),
    round2 (contribSum (body.items.map (snapshot db))), "pending",
    body.delivery_terms, body.payment_method, db.nextId⟩, ?_, ?_, rfl, rfl, rfl, rfl⟩ <;>
    simp [create_order, hro, hie, hpi]

/-- C2: an order-creation call whose item list is empty or contains any
invalid item (malformed id, listing absent or not active, or
non-positive quantity) raises an error and leaves the stored state, in
particular the order collection, unchanged. -/
theorem create_order_all_or_nothing (db : DB) (current : AuthedUser)
    (body : CreateOrderBody)
    (hfail : body.items = [] ∨ ∃ it ∈ body.items, itemValid db it = false) :
    (create_order db current body).1 = db ∧
    ∃ e, (create_order db current body).2 = .err e := by
  by_cases hrole : (current.role == "buyer" || current.role == "admin") = true
  · rcases hfail with hemp | hbad
    · refine ⟨?_, ⟨400, "No items provided"⟩, ?_⟩ <;>
        simp [create_order, hrole, hemp]
    · have hne : body.items.isEmpty = false := by
        obtain ⟨it, hit, _⟩ := hbad
        cases h : body.items
        · rw [h] at hit; simp at hit
        · rfl
      obtain ⟨e, he⟩ := processItems_err_of_invalid db body.items [] 0 hbad
      refine ⟨?_, e, ?_⟩ <;> simp [create_order, hrole, hne, he]
  · have hrole' : (current.role == "buyer" || current.role == "admin") = false := by
      cases hb : current.role == "buyer" || current.role == "admin"
      · rfl
      · exact absurd hb hrole
    refine ⟨?_, ⟨403, "Only buyers can place orders"⟩, ?_⟩ <;>
      simp [create_order, hrole']

/-- C6: items are validated in input order, and for the first failing
item the first failing check in the chain decides the error: 400
"Invalid id format" for a structurally invalid id, then 404 "Listing not
found: id", then 400 "Listing not active: id", then 400 "Quantity must
be > 0"; everything after the failing item is irrelevant. -/
theorem create_order_first_error (db : DB) (current : AuthedUser)
    (body : CreateOrderBody) (pre : List OrderItemIn) (it : OrderItemIn)
    (rest : List OrderItemIn)
    (hrole : current.role = "buyer" ∨ current.role = "admin")
    (hitems : body.items = pre ++ it :: rest)
    (hpre : ∀ p ∈ pre, itemValid db p = true) :
    (validObjectId it.listing_id = false →
      (create_order db current body).2 = .err ⟨400, "Invalid id format"⟩) ∧
    (validObjectId it.listing_id = true →
      findListing db (canonicalId it.listing_id) = none →
      (create_order db current body).2 =
        .err ⟨404, "Listing not found: " ++ it.listing_id⟩) ∧
    (∀ l, validObjectId it.listing_id = true →
      findListing db (canonicalId it.listing_id) = some l →
      l.status ≠ some "active" →
      (create_order db current body).2 =
        .err ⟨400, "Listing not active: " ++ it.listing_id⟩) ∧
    (∀ l, validObjectId it.listing_id = true →
      findListing db (canonicalId it.listing_id) = some l →
      l.status = some "active" → it.quantity ≤ 0 →
      (create_order db current body).2 = .err ⟨400, "Quantity must be > 0"⟩) := by
  have hro := role_guard_true hrole
  have hne : body.items.isEmpty = false := by
    rw [hitems]; cases pre <;> rfl
  have key : ∀ e, validateItem db it = .err e →
      (create_order db current body).2 = .err e := by
    intro e he
    have hp : processItems db [] 0 body.items = .err e := by
      rw [hitems, processItems_valid_pre db pre (it :: rest) [] 0 hpre]
      exact processItems_cons_err _ _ _ he
    simp [create_order, hro, hne, hp]
  refine ⟨?_, ?_, ?_, ?_⟩
  · intro hid
    exact key _ (by simp [validateItem, oid, hid])
  · intro hid hf
    exact key _ (by simp [validateItem, oid, hid, hf])
  · intro l hid hf hst
    have hb : (l.status == some "active") = false := by
      cases hb2 : l.status == some "active"
      · rfl
      · exact absurd (by simpa using hb2) hst
    exact key _ (by simp [validateItem, oid, hid, hf, hb])
  · intro l hid hf hst hq
    exact key _ (by simp [validateItem, oid, hid, hf, hst, hq])

lemma contribSum_append (a b : List OrderItemDoc) :
    contribSum (a ++ b) = contribSum a + contribSum b := by
  simp [contribSum]

lemma contribSum_cons (d : OrderItemDoc) (b : List OrderItemDoc) :
    contribSum (d :: b) = d.unit_price * d.quantity + contribSum b := by
  simp [contribSum]

/-- C10: in any order-creation call that passes validation, an item whose
referenced active listing is stored without a unit_price field is
snapshotted with unit_price 0 and contributes 0 to the total — the
persisted total equals the rounded sum over the remaining items alone —
and one whose listing is stored without a title field is snapshotted
with title "Produce"; in all cases the call succeeds rather than
erroring on the missing fields. The two defaults are independent and
the item may sit anywhere in a list of any length. -/
theorem create_order_missing_fields (db : DB) (current : AuthedUser)
    (body : CreateOrderBody) (pre post : List OrderItemIn)
    (it : OrderItemIn) (l : ListingDoc)
    (hrole : current.role = "buyer" ∨ current.role = "admin")
    (hitems : body.items = pre ++ it :: post)
    (hvalid : ∀ x ∈ body.items, itemValid db x = true)
    (hf : findListing db (canonicalId it.listing_id) = some l) :
    ∃ order : OrderDoc,
      (create_order db current body).1.orders = db.orders ++ [order] ∧
      (create_order db current body).2 = .ok ⟨order.id, order.total_amount, "pending"⟩ ∧
      order.status = "pending" ∧
      order.items = body.items.map (snapshot db) ∧
      (l.unit_price = none →
        (snapshot db it).unit_price = 0 ∧
        order.total_amount = round2 (contribSum ((pre ++ post).map (snapshot db)))) ∧
      (l.title = none → (snapshot db it).title = "Produce") := by
  have hro := role_guard_true hrole
  have hne : body.items.isEmpty = false := by rw [hitems]; cases pre <;> rfl
  have hpi := processItems_all_valid db body.items hvalid
  refine ⟨⟨db.freshId, current.id, body.items.map (snapshot db),
    round2 (contribSum (body.items.map (snapshot db))), "pending",
    body.delivery_terms, body.payment_method, db.nextId⟩,
    ?_, ?_, rfl, rfl, ?_, ?_⟩
  · simp [create_order, hro, hne, hpi]
  · simp [create_order, hro, hne, hpi]
  · intro hprice
    have hsp : (snapshot db it).unit_price = 0 := by simp [snapshot, hf, hprice]
    refine ⟨hsp, ?_⟩
    have hcs : contribSum (body.items.map (snapshot db)) =
        contribSum ((pre ++ post).map (snapshot db)) := by
      rw [hitems]
      simp only [List.map_append, List.map_cons, contribSum_append, contribSum_cons]
      rw [hsp]
      ring
    exact congrArg round2 hcs
  · intro htitle
    simp [snapshot, hf, htitle]

/-- C3 (amended): a signup whose email is already registered fails with
status 400 BadRequest "Email already registered" (not with a Conflict
status) and persists nothing. -/
theorem signup_duplicate_rejected (hash : String → String) (db : DB)
    (body : SignUpBody) (h : ∃ u ∈ db.users, u.email = body.email) :
    (signup hash db body).1 = db ∧
    (signup hash db body).2 = .err ⟨400, "Email already registered"⟩ ∧
    Err.kind ⟨400, "Email already registered"⟩ = ErrKind.badRequest := by
  have hs : (db.users.find? (fun u => u.email == body.email)).isSome = true := by
    rw [List.find?_isSome]
    obtain ⟨u, hu, he⟩ := h
    exact ⟨u, hu, by simp [he]⟩
  rcases hf : db.users.find? (fun u => u.email == body.email) with _ | u
  · rw [hf] at hs; simp at hs
  · exact ⟨by simp [signup, hf], by simp [signup, hf], rfl⟩

/-- C4: whatever the filters, every listing returned by GET /listings
has status "active". -/
theorem get_listings_only_active (db : DB) (qp : ListingsQuery)
    (l : ListingDoc) (h : l ∈ get_listings db qp) : l.status = some "active" := by
  unfold get_listings at h
  have h1 : l ∈ List.insertionSort listingDesc (db.listings.filter (matchesQuery qp)) :=
    List.take_subset _ _ h
  have h2 : l ∈ db.listings.filter (matchesQuery qp) :=
    (List.perm_insertionSort listingDesc _).mem_iff.mp h1
  have h3 := (List.mem_filter.mp h2).2
  unfold matchesQuery at h3
  simp only [Bool.and_eq_true, beq_iff_eq] at h3
  exact h3.1.1.1.1

lemma reMatchHere_eq_litHere (p : List Char) (hp : literalPat p = true) :
    ∀ t, reMatchHere p t = litHere p t := by
  induction p with
  | nil => intro t; cases t <;> rfl
  | cons c cs ih =>
    have hp' := hp
    simp only [literalPat, List.all_cons, Bool.and_eq_true, Bool.not_eq_true'] at hp'
    obtain ⟨hc, hcs⟩ := hp'
    intro t
    cases t with
    | nil => rfl
    | cons a as =>
      have hne : (c == '.') = false := by
        cases hcc : c == '.'
        · rfl
        · have hcd : c = '.' := by simpa using hcc
          rw [hcd] at hc; simp [isRegexMeta] at hc
      simp only [reMatchHere, litHere, hne, Bool.false_eq_true, if_neg, ite_false]
      rw [ih (by simpa [literalPat] using hcs) as]

lemma reSearch_eq_litSearch (p : List Char) (hp : literalPat p = true)
    (t : List Char) : reSearch p t = litSearch p t := by
  induction t with
  | nil => simp [reSearch, litSearch, reMatchHere_eq_litHere p hp]
  | cons a as ih => simp [reSearch, litSearch, reMatchHere_eq_litHere p hp, ih]

/-- C7 (amended): the text query is handed to the persistence layer as an
unescaped case-insensitive regular expression matched against the title
(unanchored), not as a literal substring. On patterns of literals and
dots: with no other filter set and a limit at least the collection size,
a listing is returned exactly when it is stored, active, and its title
matches the pattern (an empty query matches everything); and whenever
the pattern is free of every regex metacharacter, regex matching
coincides with case-insensitive literal substring matching. -/
theorem get_listings_text_regex (db : DB) (q : String) (limit : Nat)
    (l : ListingDoc)
    (hdot : dotLiteralPat q.toList = true)
    (hlim : db.listings.length ≤ limit) :
    (l ∈ get_listings db ⟨none, none, some q, none, none, limit⟩ ↔
      l ∈ db.listings ∧ l.status = some "active" ∧
      (q = "" ∨ ∃ t, l.title = some t ∧ reSearch q.toList t.toList = true)) ∧
    (literalPat q.toList = true →
      ∀ t : String, reSearch q.toList t.toList = ciSubstring q t) := by
  constructor
  · have hmq : ∀ x : ListingDoc,
        matchesQuery ⟨none, none, some q, none, none, limit⟩ x = true ↔
        (x.status = some "active" ∧
          (q = "" ∨ ∃ t, x.title = some t ∧ reSearch q.toList t.toList = true)) := by
      intro x
      show ((x.status == some "active") && true && true && true &&
        (q == "" || match x.title with
          | none => false
          | some t => reSearch q.toList t.toList)) = true ↔ _
      rcases hx : x.title with _ | t
      · simp
      · simp
    constructor
    · intro h
      have h1 := List.take_subset _ _ h
      have h2 := (List.perm_insertionSort listingDesc _).mem_iff.mp h1
      obtain ⟨hmem, hm⟩ := List.mem_filter.mp h2
      exact ⟨hmem, (hmq l).mp hm⟩
    · rintro ⟨hmem, hst, hq⟩
      have h2 : l ∈ db.listings.filter
          (matchesQuery ⟨none, none, some q, none, none, limit⟩) :=
        List.mem_filter.mpr ⟨hmem, (hmq l).mpr ⟨hst, hq⟩⟩
      have h1 := (List.perm_insertionSort listingDesc _).mem_iff.mpr h2
      unfold get_listings
      have hlen : (List.insertionSort listingDesc (db.listings.filter
          (matchesQuery ⟨none, none, some q, none, none, limit⟩))).length ≤ limit := by
        rw [(List.perm_insertionSort listingDesc _).length_eq]
        exact le_trans (List.length_filter_le _ _) hlim
      rw [List.take_of_length_le hlen]
      exact h1
  · intro hlit t
    exact reSearch_eq_litSearch q.toList hlit t.toList

/-- C8: GET /orders is Forbidden unless the caller role is buyer or
admin, and otherwise returns exactly the stored orders whose buyer_id is
the caller id, sorted by creation time descending — an admin too sees
only orders with its own id as buyer_id. -/
theorem my_orders_scoped (db : DB) (current : AuthedUser) :
    (¬ (current.role = "buyer" ∨ current.role = "admin") →
      my_orders db current = .err ⟨403, "Only buyers can view their orders"⟩) ∧
    ((current.role = "buyer" ∨ current.role = "admin") →
      ∃ l, my_orders db current = .ok l ∧
        l.Perm (db.orders.filter (fun o => o.buyer_id == current.id)) ∧
        List.Sorted orderDesc l ∧
        ∀ o ∈ l, o.buyer_id = current.id) := by
  constructor
  · intro hnot
    push_neg at hnot
    have h1 : (current.role == "buyer" || current.role == "admin") = false := by
      simp [hnot.1, hnot.2]
    simp [my_orders, h1]
  · intro hrole
    refine ⟨List.insertionSort orderDesc
      (db.orders.filter (fun o => o.buyer_id == current.id)),
      by simp [my_orders, role_guard_true hrole],
      List.perm_insertionSort _ _, List.sorted_insertionSort _ _, ?_⟩
    intro o ho
    have h2 := (List.perm_insertionSort orderDesc _).mem_iff.mp ho
    have h3 := (List.mem_filter.mp h2).2
    simpa using h3

/-! Helper lemmas about the lazy token write of login. -/

lemma find?_user_cons (p : UserDoc → Bool) (v : UserDoc) (rest : List UserDoc) :
    List.find? p (v :: rest) = if p v then some v else List.find? p rest := by
  cases h : p v <;> simp [List.find?, h]

lemma find_email_after_update (users : List UserDoc) (e uid tok : String)
    (u : UserDoc) (h : users.find? (fun v => v.email == e) = some u) :
    (updateUserToken users uid tok).find? (fun v => v.email == e) = some u ∨
    (updateUserToken users uid tok).find? (fun v => v.email == e) =
      some (u.setToken tok) := by
  induction users with
  | nil => simp at h
  | cons v rest ih =>
    rw [find?_user_cons] at h
    by_cases hv : (v.email == e) = true
    · rw [if_pos hv] at h
      injection h with h
      subst h
      by_cases hid : (v.id == uid) = true
      · right
        have hstep : updateUserToken (v :: rest) uid tok = v.setToken tok :: rest := by
          simp [updateUserToken, hid]
        rw [hstep, find?_user_cons]
        exact if_pos hv
      · left
        have hstep : updateUserToken (v :: rest) uid tok =
            v :: updateUserToken rest uid tok := by
          simp [updateUserToken, hid]
        rw [hstep, find?_user_cons]
        exact if_pos hv
    · rw [if_neg hv] at h
      have hv' : ¬ (((v.setToken tok).email == e) = true) := hv
      by_cases hid : (v.id == uid) = true
      · left
        have hstep : updateUserToken (v :: rest) uid tok = v.setToken tok :: rest := by
          simp [updateUserToken, hid]
        rw [hstep, find?_user_cons, if_neg hv']
        exact h
      · have hstep : updateUserToken (v :: rest) uid tok =
            v :: updateUserToken rest uid tok := by
          simp [updateUserToken, hid]
        rcases ih h with h' | h'
        · left
          rw [hstep, find?_user_cons, if_neg hv]
          exact h'
        · right
          rw [hstep, find?_user_cons, if_neg hv]
          exact h'

lemma login_token_of_find {hash : String → String} (db : DB) {lb : LoginBody}
    {w : UserDoc} (hf : db.users.find? (fun v => v.email == lb.email) = some w)
    (hpw : (w.password_hash == hash lb.password) = true) :
    ∃ db₂ r₂, login hash db lb = (db₂, .ok r₂) ∧
      r₂.token = (if tokenSet w.token then w.token.getD ""
                  else hash (w.email ++ ":" ++ w.role)) := by
  by_cases htk : tokenSet w.token = true
  · exact ⟨db, ⟨w.id, w.token.getD "", w.role, some w.name⟩,
      by simp [login, hf, hpw, htk], by simp [htk]⟩
  · have htk' : tokenSet w.token = false := by
      cases h : tokenSet w.token
      · rfl
      · exact absurd h htk
    exact ⟨⟨updateUserToken db.users w.id (hash (w.email ++ ":" ++ w.role)),
      db.listings, db.orders, db.nextId⟩,
      ⟨w.id, hash (w.email ++ ":" ++ w.role), w.role, some w.name⟩,
      by simp [login, hf, hpw, htk'], by simp [htk']⟩

/-- C5: the token set at signup is the one-way hash of email:role; the
token derived lazily at a first login without one follows the same
scheme; and once a successful login has returned a token, logging in
again with the same credentials succeeds and returns that same token. -/
theorem token_hash_idempotent (hash : String → String) (db : DB)
    (body : SignUpBody) (lb : LoginBody) :
    (∀ db' r, signup hash db body = (db', .ok r) →
      r.token = hash (body.email ++ ":" ++ body.role) ∧
      ∃ u ∈ db'.users, u.email = body.email ∧ u.token = some r.token) ∧
    (∀ u db₁ r₁, db.users.find? (fun v => v.email == lb.email) = some u →
      tokenSet u.token = false → login hash db lb = (db₁, .ok r₁) →
      r₁.token = hash (u.email ++ ":" ++ u.role)) ∧
    (∀ db₁ r₁, login hash db lb = (db₁, .ok r₁) →
      ∃ db₂ r₂, login hash db₁ lb = (db₂, .ok r₂) ∧ r₂.token = r₁.token) := by
  refine ⟨?_, ?_, ?_⟩
  · intro db' r hsu
    rcases hf : db.users.find? (fun u => u.email == body.email) with _ | u
    · simp only [signup, hf, Prod.mk.injEq, Result.ok.injEq] at hsu
      obtain ⟨hdb, hr⟩ := hsu
      subst hdb
      subst hr
      refine ⟨rfl, ⟨db.freshId, body.name, body.email, hash body.password,
        body.role, body.phone, body.region, false,
        some (hash (body.email ++ ":" ++ body.role)), db.nextId⟩,
        List.mem_append_right _ (by simp), rfl, rfl⟩
    · simp [signup, hf] at hsu
  · intro u db₁ r₁ hf htk hlg
    by_cases hpw : (u.password_hash == hash lb.password) = true
    · simp only [login, hf, hpw, if_true, htk, Bool.false_eq_true, if_false,
        Prod.mk.injEq, Result.ok.injEq] at hlg
      obtain ⟨-, hr⟩ := hlg
      subst hr
      rfl
    · have hpw' : (u.password_hash == hash lb.password) = false := by
        cases h : u.password_hash == hash lb.password
        · rfl
        · exact absurd h hpw
      simp [login, hf, hpw'] at hlg
  · intro db₁ r₁ hlg
    rcases hf : db.users.find? (fun v => v.email == lb.email) with _ | u
    · simp [login, hf] at hlg
    · by_cases hpw : (u.password_hash == hash lb.password) = true
      · by_cases htk : tokenSet u.token = true
        · simp only [login, hf, hpw, if_true, htk, Prod.mk.injEq,
            Result.ok.injEq] at hlg
          obtain ⟨hdb, hr⟩ := hlg
          subst hdb
          subst hr
          obtain ⟨db₂, r₂, hl₂, ht₂⟩ := login_token_of_find db hf hpw
          exact ⟨db₂, r₂, hl₂, by rw [ht₂, if_pos htk]⟩
        · have htk' : tokenSet u.token = false := by
            cases h : tokenSet u.token
            · rfl
            · exact absurd h htk
          simp only [login, hf, hpw, if_true, htk', Bool.false_eq_true, if_false,
            Prod.mk.injEq, Result.ok.injEq] at hlg
          obtain ⟨hdb, hr⟩ := hlg
          subst hdb
          subst hr
          rcases find_email_after_update db.users lb.email u.id
              (hash (u.email ++ ":" ++ u.role)) u hf with h' | h'
          · obtain ⟨db₂, r₂, hl₂, ht₂⟩ := login_token_of_find
              ⟨updateUserToken db.users u.id (hash (u.email ++ ":" ++ u.role)),
               db.listings, db.orders, db.nextId⟩ h' hpw
            exact ⟨db₂, r₂, hl₂, by rw [ht₂, if_neg (by rw [htk']; exact Bool.false_ne_true)]⟩
          · obtain ⟨db₂, r₂, hl₂, ht₂⟩ := login_token_of_find
              ⟨updateUserToken db.users u.id (hash (u.email ++ ":" ++ u.role)),
               db.listings, db.orders, db.nextId⟩ h' hpw
            refine ⟨db₂, r₂, hl₂, ?_⟩
            rw [ht₂]
            by_cases hts : tokenSet (u.setToken (hash (u.email ++ ":" ++ u.role))).token = true
            · rw [if_pos hts]
              rfl
            · rw [if_neg hts]
              rfl
      · have hpw' : (u.password_hash == hash lb.password) = false := by
          cases h : u.password_hash == hash lb.password
          · rfl
          · exact absurd h hpw
        simp [login, hf, hpw'] at hlg

/-! Helper lemmas about the bearer header scheme check. -/

lemma toNat_ofNat_lt {n : Nat} (h : n < 55296) : (Char.ofNat n).toNat = n := by
  simp [Char.ofNat, Char.ofNatAux, h, Nat.isValidChar, Char.toNat, UInt32.toNat]

lemma lowerChar_eq_space {c : Char} (h : lowerChar c = ' ') : c = ' ' := by
  unfold lowerChar at h
  split at h
  · exfalso
    rename_i hc
    simp only [Bool.and_eq_true, decide_eq_true_eq] at hc
    have h2 := congrArg Char.toNat h
    rw [toNat_ofNat_lt (by omega)] at h2
    have h3 : (' ' : Char).toNat = 32 := rfl
    rw [h3] at h2
    omega
  · exact h

lemma char_ne_space_of_lower {c d : Char} (h : lowerChar c = d) (hd : d ≠ ' ') :
    (c == ' ') = false := by
  cases hb : c == ' '
  · rfl
  · have hc : c = ' ' := by simpa using hb
    subst hc
    exact absurd (h.symm.trans (by decide : lowerChar ' ' = ' ')) hd

lemma bearer_has_space {cs : List Char}
    (h : startsWithChars (lowerChars cs) bearerPat = true) :
    ∃ rest, afterFirstSpace cs = some rest := by
  rcases cs with _ | ⟨c0, _ | ⟨c1, _ | ⟨c2, _ | ⟨c3, _ | ⟨c4, _ | ⟨c5, _ | ⟨c6, rest⟩⟩⟩⟩⟩⟩⟩ <;>
    simp only [lowerChars, List.map, startsWithChars, bearerPat, Bool.and_eq_true] at h
  case nil => exact absurd h (by simp)
  case cons.nil => exact absurd h.2 (by simp)
  case cons.cons.nil => exact absurd h.2.2 (by simp)
  case cons.cons.cons.nil => exact absurd h.2.2.2 (by simp)
  case cons.cons.cons.cons.nil => exact absurd h.2.2.2.2 (by simp)
  case cons.cons.cons.cons.cons.nil => exact absurd h.2.2.2.2.2 (by simp)
  case cons.cons.cons.cons.cons.cons.nil => exact absurd h.2.2.2.2.2.2 (by simp)
  case cons.cons.cons.cons.cons.cons.cons =>
    obtain ⟨hb0, hb1, hb2, hb3, hb4, hb5, hb6, -⟩ := h
    have h0 := char_ne_space_of_lower (by simpa using hb0) (by decide)
    have h1 := char_ne_space_of_lower (by simpa using hb1) (by decide)
    have h2 := char_ne_space_of_lower (by simpa using hb2) (by decide)
    have h3 := char_ne_space_of_lower (by simpa using hb3) (by decide)
    have h4 := char_ne_space_of_lower (by simpa using hb4) (by decide)
    have h5 := char_ne_space_of_lower (by simpa using hb5) (by decide)
    have h6 : (c6 == ' ') = true := by
      simp only [beq_iff_eq]
      exact lowerChar_eq_space (by simpa using hb6)
    refine ⟨rest, ?_⟩
    simp [afterFirstSpace, h0, h1, h2, h3, h4, h5, h6]

/-- C9: token resolution accepts the scheme word case-insensitively; a
missing header or one without the bearer-space prefix is rejected with
401 Unauthorized; otherwise the token looked up is the entire remainder
of the header after the first space with surrounding whitespace
stripped, an unknown token yields 401 and a known one resolves to that
user. -/
theorem auth_bearer_parsing (db : DB) (s : String) :
    (get_current_user db none = .err ⟨401, "Unauthorized"⟩) ∧
    (bearerOk s = false →
      get_current_user db (some s) = .err ⟨401, "Unauthorized"⟩) ∧
    (bearerOk s = true →
      get_current_user db (some s) =
        (match db.users.find? (fun u => u.token == some (claimToken s)) with
         | none => .err ⟨401, "Invalid token"⟩
         | some u => .ok ⟨u.id, u.role, some u.name⟩)) := by
  refine ⟨rfl, ?_, ?_⟩
  · intro hb
    by_cases hs : (s == "") = true
    · simp [get_current_user, hs]
    · have hs' : (s == "") = false := by
        cases hbeq : s == ""
        · rfl
        · exact absurd hbeq hs
      simp [get_current_user, hs', hb]
  · intro hb
    have hs' : (s == "") = false := by
      cases hbeq : s == ""
      · rfl
      · have he : s = "" := by simpa using hbeq
        rw [he] at hb
        exact absurd hb (by decide)
    obtain ⟨rest, hrest⟩ := bearer_has_space hb
    have hrest' : afterFirstSpace s.data = some rest := hrest
    have hct : claimToken s = String.mk (stripChars rest) := by
      simp [claimToken, hrest']
    rw [hct]
    simp [get_current_user, hs', hb, hrest']

/-! Concrete counterexamples and witnesses. The local reducibility
attributes let the kernel evaluate the rational arithmetic of the
Batteries Rat operations inside decide proofs. -/

section ConcreteRuns

attribute [local semireducible] Rat.mul Rat.add Rat.sub Rat.inv Rat.ofScientific

def c3User : UserDoc :=
  ⟨"0", "Amara", "a@x.com", "h", "farmer", none, none, false, none, 0⟩

def c3Db : DB := ⟨[c3User], [], [], 1⟩

def c3Body : SignUpBody := ⟨"Bea", "a@x.com", "pw", "buyer", none, none⟩

/-- C3 counterexample: a duplicate-email signup surfaces status 400,
whose machine-readable kind is BadRequest, not the Conflict kind the
claim states. -/
theorem signup_duplicate_not_conflict :
    (signup (fun s => s) c3Db c3Body).2 = .err ⟨400, "Email already registered"⟩ ∧
    (Err.mk 400 "Email already registered").kind = ErrKind.badRequest ∧
    (Err.mk 400 "Email already registered").kind ≠ ErrKind.conflict := by
  refine ⟨by decide, by decide, by decide⟩

/-- C3 witness run for the amended statement. -/
theorem signup_duplicate_rejected_witness :
    (signup (fun s => s) c3Db c3Body).1 = c3Db ∧
    (signup (fun s => s) c3Db c3Body).2 = .err ⟨400, "Email already registered"⟩ ∧
    Err.kind ⟨400, "Email already registered"⟩ = ErrKind.badRequest :=
  signup_duplicate_rejected (fun s => s) c3Db c3Body ⟨c3User, by decide, by decide⟩

def w1Listing : ListingDoc :=
  ⟨"aaaaaaaaaaaaaaaaaaaaaaaa", "f1", some "Maize", some "grains",
   some (5 / 2), none, some "active", 0⟩

def w1Db : DB := ⟨[], [w1Listing], [], 1⟩

def w1Buyer : AuthedUser := ⟨"b1", "buyer", some "Bea"⟩

def w1Body : CreateOrderBody :=
  ⟨[⟨"aaaaaaaaaaaaaaaaaaaaaaaa", 10⟩], none, none⟩

/-- C1 witness run: a buyer ordering ten units of an active listing. -/
theorem create_order_total_pending_witness :
    ∃ order : OrderDoc,
      (create_order w1Db w1Buyer w1Body).1.orders = w1Db.orders ++ [order] ∧
      (create_order w1Db w1Buyer w1Body).2 = .ok ⟨order.id, order.total_amount, "pending"⟩ ∧
      order.status = "pending" ∧
      order.buyer_id = w1Buyer.id ∧
      order.items = w1Body.items.map (snapshot w1Db) ∧
      order.total_amount = round2 (contribSum (w1Body.items.map (snapshot w1Db))) :=
  create_order_total_pending w1Db w1Buyer w1Body (Or.inl rfl) (by decide) (by decide)

def w2Listing : ListingDoc :=
  ⟨"cccccccccccccccccccccccc", "f1", some "Beans", some "legumes",
   some 3, none, some "inactive", 0⟩

def w2Db : DB := ⟨[], [w2Listing], [], 1⟩

def w2Buyer : AuthedUser := ⟨"b2", "buyer", some "Bea"⟩

def w2Body : CreateOrderBody :=
  ⟨[⟨"cccccccccccccccccccccccc", 4⟩], none, none⟩

/-- C2 witness run: an order on an inactive listing changes nothing. -/
theorem create_order_all_or_nothing_witness :
    (create_order w2Db w2Buyer w2Body).1 = w2Db ∧
    ∃ e, (create_order w2Db w2Buyer w2Body).2 = .err e :=
  create_order_all_or_nothing w2Db w2Buyer w2Body (Or.inr (by decide))

def w4Listing : ListingDoc :=
  ⟨"dddddddddddddddddddddddd", "f1", some "Yam", some "roots",
   some 2, some "east", some "active", 3⟩

def w4Db : DB := ⟨[], [w4Listing], [], 4⟩

def w4Query : ListingsQuery := ⟨none, none, none, none, none, 50⟩

/-- C4 witness run: a listing returned by an unfiltered query is active. -/
theorem get_listings_only_active_witness : w4Listing.status = some "active" :=
  get_listings_only_active w4Db w4Query w4Listing (by decide)

def w5Hash : String → String := fun s => String.append "h" s

def w5User : UserDoc :=
  ⟨"1", "Ann", "a@x.com", "hpw", "farmer", none, none, false, none, 0⟩

def w5Db : DB := ⟨[w5User], [], [], 1⟩

def w5Lb : LoginBody := ⟨"a@x.com", "pw"⟩

def w5Db1 : DB := ⟨[w5User.setToken "ha@x.com:farmer"], [], [], 1⟩

def w5R1 : AuthResp := ⟨"1", "ha@x.com:farmer", "farmer", some "Ann"⟩

def w5Body : SignUpBody := ⟨"Bob", "b@x.com", "pw2", "buyer", none, none⟩

/-- C5 witness run: a first login lazily derives the email:role hash as
token and a second login returns the same token; a fresh signup sets the
same scheme. -/
theorem token_hash_idempotent_witness :
    (∃ db₂ r₂, login w5Hash w5Db1 w5Lb = (db₂, .ok r₂) ∧ r₂.token = w5R1.token) ∧
    w5R1.token = w5Hash (w5User.email ++ ":" ++ w5User.role) ∧
    ∀ db' r, signup w5Hash w5Db w5Body = (db', .ok r) →
      r.token = w5Hash ("b@x.com" ++ ":" ++ "buyer") := by
  have h1 : login w5Hash w5Db w5Lb = (w5Db1, .ok w5R1) := by decide
  have h := token_hash_idempotent w5Hash w5Db w5Body w5Lb
  exact ⟨h.2.2 w5Db1 w5R1 h1, h.2.1 w5User w5Db1 w5R1 (by decide) (by decide) h1,
    fun db' r hs => (h.1 db' r hs).1⟩

def w6Listing : ListingDoc :=
  ⟨"eeeeeeeeeeeeeeeeeeeeeeee", "f1", some "Okra", some "vegetables",
   some 1, none, some "active", 0⟩

def w6Db : DB := ⟨[], [w6Listing], [], 1⟩

def w6Buyer : AuthedUser := ⟨"b6", "buyer", some "Bea"⟩

def w6It1 : OrderItemIn := ⟨"eeeeeeeeeeeeeeeeeeeeeeee", 2⟩

def w6It2 : OrderItemIn := ⟨"ffffffffffffffffffffffff", 2⟩

def w6Body : CreateOrderBody := ⟨[w6It1, w6It2], none, none⟩

/-- C6 witness run: after a valid first item, a second item whose
listing does not exist aborts the call with its 404. -/
theorem create_order_first_error_witness :
    (create_order w6Db w6Buyer w6Body).2 =
      .err ⟨404, "Listing not found: ffffffffffffffffffffffff"⟩ :=
  (create_order_first_error w6Db w6Buyer w6Body [w6It1] w6It2 []
    (Or.inl rfl) rfl (by decide)).2.1 (by decide) (by decide)

def c7Listing : ListingDoc :=
  ⟨"abababababababababababab", "f1", some "abc", some "other",
   some 1, none, some "active", 0⟩

def c7Db : DB := ⟨[], [c7Listing], [], 1⟩

/-- C7 counterexample: with text query "a.c" the listing titled "abc" is
returned, although "a.c" is not a case-insensitive literal substring of
"abc" — the query reaches the store as an unescaped regular expression. -/
theorem get_listings_regex_not_substring :
    c7Listing ∈ get_listings c7Db ⟨none, none, some "a.c", none, none, 50⟩ ∧
    ciSubstring "a.c" "abc" = false ∧
    c7Listing.title = some "abc" := by
  refine ⟨by decide, by decide, by decide⟩

def w7Listing : ListingDoc :=
  ⟨"cdcdcdcdcdcdcdcdcdcdcdcd", "f1", some "Fresh Maize", some "grains",
   some 2, none, some "active", 0⟩

def w7Db : DB := ⟨[], [w7Listing], [], 1⟩

/-- C7 witness run for the amended statement, at the metacharacter-free
query "ma". -/
theorem get_listings_text_regex_witness :
    (w7Listing ∈ get_listings w7Db ⟨none, none, some "ma", none, none, 50⟩ ↔
      w7Listing ∈ w7Db.listings ∧ w7Listing.status = some "active" ∧
      ("ma" = "" ∨ ∃ t, w7Listing.title = some t ∧
        reSearch "ma".toList t.toList = true)) ∧
    ∀ t : String, reSearch "ma".toList t.toList = ciSubstring "ma" t := by
  have h := get_listings_text_regex w7Db "ma" 50 w7Listing (by decide) (by decide)
  exact ⟨h.1, h.2 (by decide)⟩

def w8Order1 : OrderDoc :=
  ⟨"10", "b8", [⟨"aaaaaaaaaaaaaaaaaaaaaaaa", 1, 2, "Maize"⟩], 2, "pending",
   none, none, 5⟩

def w8Order2 : OrderDoc :=
  ⟨"11", "other", [⟨"aaaaaaaaaaaaaaaaaaaaaaaa", 1, 2, "Maize"⟩], 2, "pending",
   none, none, 6⟩

def w8Order3 : OrderDoc :=
  ⟨"12", "b8", [⟨"aaaaaaaaaaaaaaaaaaaaaaaa", 3, 2, "Maize"⟩], 6, "pending",
   none, none, 7⟩

def w8Db : DB := ⟨[], [], [w8Order1, w8Order2, w8Order3], 13⟩

def w8Buyer : AuthedUser := ⟨"b8", "buyer", some "Bea"⟩

/-- C8 witness run: a buyer sees exactly its own two orders, newest
first. -/
theorem my_orders_scoped_witness :
    ∃ l, my_orders w8Db w8Buyer = .ok l ∧
      l.Perm (w8Db.orders.filter (fun o => o.buyer_id == w8Buyer.id)) ∧
      List.Sorted orderDesc l ∧
      ∀ o ∈ l, o.buyer_id = w8Buyer.id :=
  (my_orders_scoped w8Db w8Buyer).2 (Or.inl rfl)

def w9User : UserDoc :=
  ⟨"1", "Ann", "a@x.com", "hpw", "buyer", none, none, false, some "x", 0⟩

def w9Db : DB := ⟨[w9User], [], [], 1⟩

/-- C9 witness run: the scheme word is accepted in any case, a
non-bearer scheme is rejected, and the stripped remainder after the
first space is the token looked up. -/
theorem auth_bearer_parsing_witness :
    get_current_user w9Db (some "Bearer x") = .ok ⟨"1", "buyer", some "Ann"⟩ ∧
    get_current_user w9Db (some "bearer x") = .ok ⟨"1", "buyer", some "Ann"⟩ ∧
    get_current_user w9Db (some "BEARER x") = .ok ⟨"1", "buyer", some "Ann"⟩ ∧
    get_current_user w9Db (some "Bearer   x  ") = .ok ⟨"1", "buyer", some "Ann"⟩ ∧
    get_current_user w9Db (some "Token x") = .err ⟨401, "Unauthorized"⟩ ∧
    get_current_user w9Db none = .err ⟨401, "Unauthorized"⟩ := by
  have h1 := (auth_bearer_parsing w9Db "Bearer x").2.2 (by decide)
  have h2 := (auth_bearer_parsing w9Db "bearer x").2.2 (by decide)
  have h3 := (auth_bearer_parsing w9Db "BEARER x").2.2 (by decide)
  have h4 := (auth_bearer_parsing w9Db "Bearer   x  ").2.2 (by decide)
  have h5 := (auth_bearer_parsing w9Db "Token x").2.1 (by decide)
  have h6 := (auth_bearer_parsing w9Db "Token x").1
  rw [h1, h2, h3, h4]
  exact ⟨by decide, by decide, by decide, by decide, h5, h6⟩

def w10ListingA : ListingDoc :=
  ⟨"abcdefabcdefabcdefabcdef", "f1", none, some "other",
   none, none, some "active", 0⟩

def w10ListingB : ListingDoc :=
  ⟨"cdcdcdcdcdcdcdcdcdcdcdcd", "f1", some "Beans", some "legumes",
   some 3, none, some "active", 1⟩

def w10Db : DB := ⟨[], [w10ListingA, w10ListingB], [], 2⟩

def w10Buyer : AuthedUser := ⟨"b10", "buyer", some "Bea"⟩

def w10ItB : OrderItemIn := ⟨"cdcdcdcdcdcdcdcdcdcdcdcd", 2⟩

def w10ItA : OrderItemIn := ⟨"abcdefabcdefabcdefabcdef", 5⟩

def w10Body : CreateOrderBody := ⟨[w10ItB, w10ItA], none, none⟩

/-- C10 witness run: a two-item order whose second listing lacks both
unit_price and title while the first is an ordinary priced listing; the
defaulted snapshot carries price 0 and title "Produce", the call
succeeds, and the total is the rounded sum over the first item alone:
6, not 0. -/
theorem create_order_missing_fields_witness :
    (∃ order : OrderDoc,
      (create_order w10Db w10Buyer w10Body).1.orders = w10Db.orders ++ [order] ∧
      (create_order w10Db w10Buyer w10Body).2 = .ok ⟨order.id, order.total_amount, "pending"⟩ ∧
      order.status = "pending" ∧
      order.items = w10Body.items.map (snapshot w10Db) ∧
      (w10ListingA.unit_price = none →
        (snapshot w10Db w10ItA).unit_price = 0 ∧
        order.total_amount = round2 (contribSum (([w10ItB] ++ []).map (snapshot w10Db)))) ∧
      (w10ListingA.title = none → (snapshot w10Db w10ItA).title = "Produce")) ∧
    round2 (contribSum (([w10ItB] ++ []).map (snapshot w10Db))) = 6 ∧
    (snapshot w10Db w10ItA).unit_price = 0 ∧
    (snapshot w10Db w10ItA).title = "Produce" :=
  ⟨create_order_missing_fields w10Db w10Buyer w10Body [w10ItB] [] w10ItA w10ListingA
    (Or.inl rfl) rfl (by decide) (by decide), by decide, by decide, by decide⟩

end ConcreteRuns

end Agricompass
